import Mathlib

/-!
Verification of the n8n Chat Hub branching conversation memory subsystem.

Shallow embedding of:
- `packages/cli/src/modules/chat-hub/chat-hub-proxy.service.ts`
  (`ChatHubProxyService`: `validateRequest`, `getChatHubProxy`, `extractAgentName`,
  `makeChatHubOperations` with `getMemory`, `addHumanMessage`, `addAIMessage`,
  `addToolMessage`, `clearMemory`, `ensureSession`),
- `packages/@n8n/nodes-langchain/nodes/memory/MemoryChatHub/ChatHubMessageHistory.ts`
  (the Entry Marshaling Adapter: `convertToLangChainMessage`, the per-role content
  parsers, `addMessage`),
- the chat-hub execution helper (`getChatHubHelperFunctions`).

The chain-building utilities (`buildMessageHistory`, `extractTurnIds` from
`chat-hub-history.utils`) and the repositories (`ChatHubMemoryRepository`,
`ChatHubMessageRepository`, `ChatHubSessionRepository`) are not part of the
sources at hand; they are modelled from the specification (each such definition
carries a `Modelled from the spec:` doc comment).

Identifiers (uuids) and timestamps are modelled as `Nat`. JavaScript runtime
values flowing through `JSON.parse` / `JSON.stringify` are modelled by an
explicit `Json` value type; a text column that may or may not hold valid JSON is
modelled by `ContentPayload`.
-/

namespace ChatHub

/-- A JavaScript value as it can appear around `JSON.parse`/`JSON.stringify`:
the JSON data forms plus `undef` for the JavaScript `undefined` that reading a
missing field (or a field of a non-object) produces. `JSON.parse` itself never
yields `undef`. -/
inductive Json where
  | null
  | bool (b : Bool)
  | num (n : Int)
  | str (s : String)
  | arr (xs : List Json)
  | obj (fields : List (String × Json))
  | undefined

mutual

/-- `JSON.stringify` of a value, producing the serialized text.
Only the string content of fallback display texts depends on this. -/
def render : Json → String
  | .null => "null"
  | .bool true => "true"
  | .bool false => "false"
  | .num n => toString n
  | .str s => "\"" ++ s ++ "\""
  | .arr xs => "[" ++ renderItems xs ++ "]"
  | .obj fs => "\x7b" ++ renderFields fs ++ "\x7d"
  | .undefined => "undefined"

/-- Comma-separated serialization of array items. -/
def renderItems : List Json → String
  | [] => ""
  | [x] => render x
  | x :: y :: xs => render x ++ "," ++ renderItems (y :: xs)

/-- Comma-separated serialization of object fields. -/
def renderFields : List (String × Json) → String
  | [] => ""
  | [(k, v)] => "\"" ++ k ++ "\":" ++ render v
  | (k, v) :: f :: fs => "\"" ++ k ++ "\":" ++ render v ++ "," ++ renderFields (f :: fs)

end

/-- The text held by a `content` column: either a raw string that is not valid
JSON (legacy/unstructured payload, `JSON.parse` throws on it) or the
serialization of a JSON value (`JSON.parse` recovers the value). -/
inductive ContentPayload where
  | text (s : String)
  | json (j : Json)

/-- `JSON.parse` on the column text: `none` models the thrown `SyntaxError`. -/
def jsonParse : ContentPayload → Option Json
  | .text _ => none
  | .json j => some j

/-- The raw column text itself (used by the fallback-to-raw-text paths). -/
def rawString : ContentPayload → String
  | .text s => s
  | .json j => render j

/-- One stored chat message: a node of the conversation tree
(`ChatMessage`, read through `ChatHubMessageRepository`). -/
structure ChatMessage where
  id : Nat
  sessionId : Nat
  parentMessageId : Option Nat
  role : String
  turnId : Option Nat
  createdAt : Nat
deriving DecidableEq, Repr

/-! ## Message Chain Builder and Turn ID Extractor

Modelled from the spec: `buildMessageHistory` and `extractTurnIds` live in
`chat-hub-history.utils`, which is not among the sources; spec §4.1/§4.2 define
them. §4.1: "construct a parent→children index. Starting from the root
(parentMessageId = null), at each node select the child with the latest
createdAt among children sharing that parent (ties broken by id for
determinism); recurse until a node has no children." Recursion is bounded by
the number of stored messages, which on a well-formed tree is never reached. -/

/-- `a` is strictly preferred over `b` as "latest": later `createdAt`,
ties broken by larger `id`. -/
def laterThan (a b : ChatMessage) : Bool :=
  b.createdAt < a.createdAt || (a.createdAt == b.createdAt && b.id < a.id)

/-- The later of two sibling messages. -/
def maxMsg (a b : ChatMessage) : ChatMessage :=
  if laterThan b a then b else a

/-- All stored messages whose parent is the message with id `pid`. -/
def childrenOf (msgs : List ChatMessage) (pid : Nat) : List ChatMessage :=
  msgs.filter (fun m => m.parentMessageId == some pid)

/-- The child with the latest `createdAt` (ties broken by id). -/
def latestChild : List ChatMessage → Option ChatMessage
  | [] => none
  | x :: xs => some (xs.foldl maxMsg x)

/-- The active path from `cur` downward, selecting the latest child at each
node; `fuel` bounds the walk. -/
def buildChain (msgs : List ChatMessage) : Nat → ChatMessage → List ChatMessage
  | 0, cur => [cur]
  | fuel + 1, cur =>
    match latestChild (childrenOf msgs cur.id) with
    | none => [cur]
    | some c => cur :: buildChain msgs fuel c

/-- Modelled from the spec (§4.1): the Message Chain Builder. From the root
(`parentMessageId = null`) follow the latest child at each node; an empty
message set yields an empty chain. -/
def buildMessageHistory (msgs : List ChatMessage) : List ChatMessage :=
  match msgs.find? (fun m => m.parentMessageId == none) with
  | none => []
  | some root => buildChain msgs msgs.length root

/-- Modelled from the spec (§4.2): the Turn ID Extractor. The ordered,
de-duplicated turn identifiers found on assistant (`ai`-role) messages of the
chain (first occurrence kept). -/
def extractTurnIds (chain : List ChatMessage) : List Nat :=
  ((chain.filter (fun m => m.role == "ai")).filterMap (fun m => m.turnId)).foldl
    (fun acc t => if t ∈ acc then acc else acc ++ [t]) []

/-! ## Memory Entry Store -/

/-- One stored memory entry (`MemoryEntry` row of `ChatHubMemoryRepository`). -/
structure MemoryEntry where
  id : Nat
  sessionId : Nat
  memoryNodeId : Nat
  turnId : Option Nat
  role : String
  content : ContentPayload
  name : Option String
  createdAt : Nat

/-- Modelled from the spec: `ChatHubMessageRepository.getManyBySessionId` is not
among the sources; it returns all chat messages of the session. -/
def getManyBySessionId (msgs : List ChatMessage) (sessionId : Nat) : List ChatMessage :=
  msgs.filter (fun m => m.sessionId == sessionId)

/-- Modelled from the spec (§6 `listMemoryEntries`):
`ChatHubMemoryRepository.getMemoryByTurnIds` is not among the sources; it
returns the entries matching (sessionId, memoryNodeId, turnId ∈ turnIds),
ordered by creation time. The store list is the append-only log in creation
order, so the filtered list is already so ordered. -/
def getMemoryByTurnIds (store : List MemoryEntry) (sessionId memoryNodeId : Nat)
    (turnIds : List Nat) : List MemoryEntry :=
  store.filter (fun e =>
    e.sessionId == sessionId && e.memoryNodeId == memoryNodeId &&
      turnIds.any (fun t => e.turnId == some t))

/-- Modelled from the spec: `ChatHubMemoryRepository.deleteBySessionAndNode`
deletes all entries of one (session, memory node) pair. -/
def deleteBySessionAndNode (store : List MemoryEntry) (sessionId memoryNodeId : Nat) :
    List MemoryEntry :=
  store.filter (fun e => !(e.sessionId == sessionId && e.memoryNodeId == memoryNodeId))

/-! ## ChatHubProxyService -/

/-- The requesting node descriptor (`INode`): only its `type` is inspected. -/
structure INode where
  type : String
deriving DecidableEq, Repr

/-- A workflow node as seen by `extractAgentName`: its `type` and its
`parameters.agentName` when that parameter is a string (`none` models both an
absent parameter and a non-string value, which the `typeof` check skips). -/
structure WorkflowNode where
  type : String
  agentName : Option String
deriving DecidableEq, Repr

/-- The workflow (`Workflow`): id, name and nodes. -/
structure Workflow where
  id : Option Nat
  name : Option String
  nodes : List WorkflowNode
deriving DecidableEq, Repr

/-- `ALLOWED_NODES` from chat-hub-proxy.service.ts. -/
def ALLOWED_NODES : List String := ["@n8n/n8n-nodes-langchain.memoryChatHub"]

/-- `isAllowedNode` from chat-hub-proxy.service.ts. -/
def isAllowedNode (s : String) : Bool := ALLOWED_NODES.contains s

/-- `NAME_FALLBACK` from chat-hub-proxy.service.ts. -/
def NAME_FALLBACK : String := "Workflow Chat"

/-- `ChatHubProxyService.validateRequest`: rejects nodes outside the allow
list. -/
def validateRequest (node : INode) : Except String Unit :=
  if isAllowedNode node.type then .ok ()
  else .error "This proxy is only available for Chat Hub Memory nodes"

/-- The chat trigger lookup inside `extractAgentName`. -/
def findChatTrigger (w : Workflow) : Option WorkflowNode :=
  w.nodes.find? (fun n => n.type == "@n8n/n8n-nodes-langchain.chatTrigger")

/-- Whitespace as JavaScript `String.prototype.trim` strips it (the common
ASCII whitespace; the further Unicode space classes play no role here). -/
def isJsWhitespace (c : Char) : Bool :=
  c == ' ' || c == '\t' || c == '\n' || c == '\r'

/-- JavaScript `String.prototype.trim`: strip leading and trailing
whitespace. -/
def trimString (s : String) : String :=
  ⟨((s.data.dropWhile isJsWhitespace).reverse.dropWhile isJsWhitespace).reverse⟩

/-- The workflow-name fallback of `extractAgentName`: workflow name when
non-blank, otherwise `NAME_FALLBACK`. -/
def workflowNameOrDefault (w : Workflow) : String :=
  match w.name with
  | some nm => if trimString nm == "" then NAME_FALLBACK else nm
  | none => NAME_FALLBACK

/-- `ChatHubProxyService.extractAgentName`: the chat trigger node's non-blank
`agentName` parameter, else the non-blank workflow name, else the default. -/
def extractAgentName (w : Workflow) : String :=
  match findChatTrigger w with
  | some n =>
    match n.agentName with
    | some a => if trimString a == "" then workflowNameOrDefault w else a
    | none => workflowNameOrDefault w
  | none => workflowNameOrDefault w

/-- The state captured by `makeChatHubOperations` for one execution: the Memory
Access Facade's parameters. -/
structure Facade where
  sessionId : Nat
  memoryNodeId : Nat
  executionTurnId : Option Nat
  ownerId : Nat
  workflowId : Option Nat
  agentName : String
deriving DecidableEq, Repr

/-- `ChatHubProxyService.getChatHubProxy`: validates the requesting node and
the owner, then builds the facade. It touches no store (its only inputs are the
workflow, the node descriptor and the scoping ids). -/
def getChatHubProxy (workflow : Workflow) (node : INode) (sessionId memoryNodeId : Nat)
    (turnId : Option Nat) (ownerId : Option Nat) : Except String Facade :=
  match validateRequest node with
  | .error msg => .error msg
  | .ok _ =>
    match ownerId with
    | none =>
        .error "Owner ID is required for Chat Hub Memory. For manual executions, ensure the user context is available."
    | some oid =>
        .ok { sessionId := sessionId, memoryNodeId := memoryNodeId,
              executionTurnId := turnId, ownerId := oid,
              workflowId := workflow.id, agentName := extractAgentName workflow }

/-- The host's execution modes (`WorkflowExecuteMode`); only the comparison
with `manual` matters to the helper. -/
inductive WorkflowExecuteMode where
  | manual
  | trigger
  | webhook
  | integrated
deriving DecidableEq, Repr

/-- The proxy closure installed by `getChatHubHelperFunctions` (execution
helper): it forwards to `getChatHubProxy`, supplying the user id as owner
except for manual executions, where it supplies none. (When no
`chatHubProxyProvider` is registered the helper exposes no closure at all;
that degenerate case is outside every claim.) -/
def getChatHubHelperProxy (userId : Option Nat) (workflow : Workflow) (node : INode)
    (mode : WorkflowExecuteMode) (sessionId memoryNodeId : Nat) (turnId : Option Nat) :
    Except String Facade :=
  getChatHubProxy workflow node sessionId memoryNodeId turnId
    (if mode == .manual then none else userId)

/-! ## Memory Access Facade operations -/

/-- The typed entry contract returned by `getMemory` (id, role, content, name,
createdAt). -/
structure ChatHubMemoryEntryOut where
  id : Nat
  role : String
  content : ContentPayload
  name : Option String
  createdAt : Nat

/-- The projection applied by `getMemory` to each loaded entry. -/
def projectEntry (e : MemoryEntry) : ChatHubMemoryEntryOut :=
  { id := e.id, role := e.role, content := e.content, name := e.name,
    createdAt := e.createdAt }

/-- The row built by `ChatHubMemoryRepository.createMemoryEntry` for a facade
write: scoped to the facade's session, memory node and execution turn. The
fresh uuid and the database timestamp are modelled by the append position. -/
def mkMemoryEntry (f : Facade) (store : List MemoryEntry) (role : String)
    (content : ContentPayload) (name : String) : MemoryEntry :=
  { id := store.length, sessionId := f.sessionId, memoryNodeId := f.memoryNodeId,
    turnId := f.executionTurnId, role := role, content := content,
    name := some name, createdAt := store.length }

/-- Facade `addHumanMessage`: appends one `human` entry named `User`. -/
def addHumanMessage (f : Facade) (store : List MemoryEntry) (content : ContentPayload) :
    List MemoryEntry :=
  store ++ [mkMemoryEntry f store "human" content "User"]

/-- Facade `addAIMessage`: appends one `ai` entry named `AI`. -/
def addAIMessage (f : Facade) (store : List MemoryEntry) (content : ContentPayload) :
    List MemoryEntry :=
  store ++ [mkMemoryEntry f store "ai" content "AI"]

/-- Facade `addToolMessage`: serializes the four-field tool-call record into
the content payload and appends one `tool` entry named after the tool. -/
def addToolMessage (f : Facade) (store : List MemoryEntry) (toolCallId toolName : String)
    (toolInput toolOutput : Json) : List MemoryEntry :=
  store ++ [mkMemoryEntry f store "tool"
    (.json (.obj [("toolCallId", .str toolCallId), ("toolName", .str toolName),
                  ("toolInput", toolInput), ("toolOutput", toolOutput)]))
    toolName]

/-- Facade `clearMemory`: deletes all entries of this (session, memory node). -/
def clearMemory (f : Facade) (store : List MemoryEntry) : List MemoryEntry :=
  deleteBySessionAndNode store f.sessionId f.memoryNodeId

/-- Facade `getMemory`, with an explicit record of whether the Memory Entry
Store was queried (second component): load the session's messages, build the
active chain, extract the turn ids, and only then query the store. -/
def getMemoryTraced (f : Facade) (msgs : List ChatMessage) (store : List MemoryEntry) :
    List ChatHubMemoryEntryOut × Bool :=
  let chatMessages := getManyBySessionId msgs f.sessionId
  if chatMessages.length == 0 then ([], false)
  else
    let messageChain := buildMessageHistory chatMessages
    let turnIds := extractTurnIds messageChain
    if turnIds.length == 0 then ([], false)
    else ((getMemoryByTurnIds store f.sessionId f.memoryNodeId turnIds).map projectEntry,
          true)

/-- Facade `getMemory`: the entries it returns. -/
def getMemory (f : Facade) (msgs : List ChatMessage) (store : List MemoryEntry) :
    List ChatHubMemoryEntryOut :=
  (getMemoryTraced f msgs store).1

/-! ## Session Bootstrap -/

/-- A `ChatSession` record as created by `ensureSession`. -/
structure ChatSession where
  id : Nat
  ownerId : Nat
  title : String
  lastMessageAt : Nat
  tools : List String
  provider : String
  credentialId : Option Nat
  model : Option String
  workflowId : Option Nat
  agentId : Option Nat
  agentName : String
deriving DecidableEq, Repr

/-- Modelled from the spec: `ChatHubSessionRepository.existsById` is not among
the sources; §4.5 keys the bootstrap by (id, ownerId). -/
def existsById (sessions : List ChatSession) (sessionId ownerId : Nat) : Bool :=
  sessions.any (fun s => s.id == sessionId && s.ownerId == ownerId)

/-- Modelled from the spec (§4.5 race policy):
`ChatHubSessionRepository.createChatSession` is not among the sources; the
repository enforces uniqueness of the bootstrap key and treats a
duplicate-create attempt as "session already exists", not as an error
surfaced to the caller. -/
def createChatSession (sessions : List ChatSession) (r : ChatSession) :
    Except String (List ChatSession) :=
  if sessions.any (fun s => s.id == r.id && s.ownerId == r.ownerId) then .ok sessions
  else .ok (sessions ++ [r])

/-- The record `ensureSession` creates: the supplied title when truthy
(JavaScript `title || agentName`, so an empty title also falls back), else the
derived agent name. -/
def mkSessionRecord (f : Facade) (title : Option String) (now : Nat) : ChatSession :=
  { id := f.sessionId, ownerId := f.ownerId,
    title := match title with
      | some t => if t == "" then f.agentName else t
      | none => f.agentName,
    lastMessageAt := now, tools := [], provider := "n8n", credentialId := none,
    model := none, workflowId := f.workflowId, agentId := none,
    agentName := f.agentName }

/-- Facade `ensureSession`: create-if-absent keyed by (sessionId, ownerId). -/
def ensureSession (f : Facade) (title : Option String) (now : Nat)
    (sessions : List ChatSession) : Except String (List ChatSession) :=
  if existsById sessions f.sessionId f.ownerId then .ok sessions
  else createChatSession sessions (mkSessionRecord f title now)

/-- Two executions racing to bootstrap the same new session: both run their
existence check against the same prior state `s0` (neither sees the other's
create), then their create attempts land one after the other. -/
def racyBootstrap (s0 : List ChatSession) (f1 f2 : Facade) (t1 t2 : Option String)
    (n1 n2 : Nat) : Except String (List ChatSession) :=
  let e1 := existsById s0 f1.sessionId f1.ownerId
  let e2 := existsById s0 f2.sessionId f2.ownerId
  match (if e1 then .ok s0 else createChatSession s0 (mkSessionRecord f1 t1 n1) :
      Except String (List ChatSession)) with
  | .error msg => .error msg
  | .ok s1 => if e2 then .ok s1 else createChatSession s1 (mkSessionRecord f2 t2 n2)

/-! ## Entry Marshaling Adapter (`ChatHubMessageHistory`) -/

/-- The consumer-side message (LangChain `BaseMessage` variants). The message
type drives `addMessage`; `other` stands for the remaining LangChain types
(generic, function, remove, ...). Contents are runtime values; id and name
fields keep their declared TypeScript types. -/
inductive LCMessage where
  | human (content : Json) (name : Option String)
  | ai (content : Json) (toolCalls : Option Json) (name : Option String)
  | tool (content : Json) (toolCallId : String) (name : Option String)
  | system (content : Json)
  | other (msgType : String) (content : Json)

/-- `typeof content === 'string' ? content : JSON.stringify(content)`. -/
def contentString : Json → String
  | .str s => s
  | j => render j

/-- Reading field `k` of a parsed object. -/
def fieldOf (fs : List (String × Json)) (k : String) : Option Json :=
  (fs.find? (fun kv => kv.1 == k)).map (fun kv => kv.2)

/-- `parseHumanMessageContent`: JSON.parse the column text; on success read
`parsed.content` (a string is kept, another value is stringified, a missing
field yields `undefined`; property access on a parsed `null` throws inside the
try and lands in the catch); on parse failure fall back to the raw text. -/
def parseHumanMessageContent (p : ContentPayload) : Json :=
  match jsonParse p with
  | none => .str (rawString p)
  | some .null => .str (rawString p)
  | some (.obj fs) =>
      match fieldOf fs "content" with
      | some (.str s) => .str s
      | some .undefined => .undefined
      | some v => .str (render v)
      | none => .undefined
  | some _ => .undefined

/-- `parseAIMessageContent`: like the human parser for the `content` field,
and `parsed.toolCalls ?? []` for the tool calls; on parse failure the raw text
with an empty tool-call list. -/
def parseAIMessageContent (p : ContentPayload) : Json × Json :=
  match jsonParse p with
  | none => (.str (rawString p), .arr [])
  | some .null => (.str (rawString p), .arr [])
  | some (.obj fs) =>
      (match fieldOf fs "content" with
       | some (.str s) => .str s
       | some .undefined => .undefined
       | some v => .str (render v)
       | none => .undefined,
       match fieldOf fs "toolCalls" with
       | some .null => .arr []
       | some .undefined => .arr []
       | some v => v
       | none => .arr [])
  | some _ => (.undefined, .arr [])

/-- The shape `parseToolMessageContent` is cast to. -/
structure StoredToolMessage where
  toolCallId : String
  toolName : String
  toolInput : Json
  toolOutput : Json

/-- A string-typed slot receiving a runtime value: a string is kept, anything
else surfaces as JavaScript `undefined` flowing uncoerced into the slot,
collapsed here to the sentinel `"undefined"` (no claim exercises that corner). -/
def strField : Option Json → String
  | some (.str s) => s
  | _ => "undefined"

/-- `parseToolMessageContent` together with the field accesses its caller
performs: JSON.parse the column text; the result is cast, not validated, so a
parsed `null` makes the caller's `toolData.toolCallId` access throw an
uncaught TypeError (modelled as `.error ()`); parse failure falls back to the
unknown/unknown/empty-input/raw-output record; any other parsed value is read
field-wise. -/
def parseToolMessageContent (p : ContentPayload) : Except Unit StoredToolMessage :=
  match jsonParse p with
  | none => .ok ⟨"unknown", "unknown", .obj [], .str (rawString p)⟩
  | some .null => .error ()
  | some .undefined => .error ()
  | some (.obj fs) =>
      .ok ⟨strField (fieldOf fs "toolCallId"), strField (fieldOf fs "toolName"),
           (fieldOf fs "toolInput").getD .undefined, (fieldOf fs "toolOutput").getD .undefined⟩
  | some _ => .ok ⟨"undefined", "undefined", .undefined, .undefined⟩

/-- `convertToLangChainMessage`: marshal one stored entry into the consumer
message. `system` and unrecognized roles pass the raw column text through as a
system message; a `tool` entry whose content is the JSON text `null` makes the
read throw (`.error`). -/
def convertToLangChainMessage (entry : ChatHubMemoryEntryOut) : Except Unit LCMessage :=
  match entry.role with
  | "human" => .ok (.human (parseHumanMessageContent entry.content) entry.name)
  | "ai" =>
      let aiData := parseAIMessageContent entry.content
      .ok (.ai aiData.1 (some aiData.2) entry.name)
  | "system" => .ok (.system (.str (rawString entry.content)))
  | "tool" =>
      match parseToolMessageContent entry.content with
      | .error e => .error e
      | .ok toolData =>
          .ok (.tool (.str (render toolData.toolOutput)) toolData.toolCallId
            (some toolData.toolName))
  | _ => .ok (.system (.str (rawString entry.content)))

/-- `ChatHubMessageHistory.addMessage` composed with the facade write it
invokes: human and ai contents are wrapped in their stored JSON shapes (ai
keeping `tool_calls ?? []`), tool messages forward the four-field record (the
input is not available from a `ToolMessage`, so `{}` is stored), and system
messages — or any other type — are not saved. -/
def addMessageHistory (f : Facade) (store : List MemoryEntry) (msg : LCMessage) :
    List MemoryEntry :=
  match msg with
  | .human c _ =>
      addHumanMessage f store (.json (.obj [("content", .str (contentString c))]))
  | .ai c tcs _ =>
      addAIMessage f store
        (.json (.obj [("content", .str (contentString c)),
                      ("toolCalls", tcs.getD (.arr []))]))
  | .tool c cid nm =>
      addToolMessage f store cid (nm.getD "unknown") (.obj []) c
  | .system _ => store
  | .other _ _ => store

/-- `d` is a proper descendant of `a` through the stored parent links: a chain
of one or more parent steps inside `msgs` leads from `d` up to `a`. -/
inductive Descendant (msgs : List ChatMessage) : ChatMessage → ChatMessage → Prop where
  | child {a d : ChatMessage} (hd : d ∈ msgs) (hp : d.parentMessageId = some a.id) :
      Descendant msgs a d
  | step {a p d : ChatMessage} (hanc : Descendant msgs a p) (hd : d ∈ msgs)
      (hp : d.parentMessageId = some p.id) : Descendant msgs a d

/-! ## Lemmas about the Message Chain Builder -/

theorem Descendant.mem_right {msgs : List ChatMessage} {a d : ChatMessage}
    (h : Descendant msgs a d) : d ∈ msgs := by
  cases h with
  | child hd _ => exact hd
  | step _ hd _ => exact hd

theorem laterThan_self (a : ChatMessage) : laterThan a a = false := by
  simp [laterThan]

theorem foldl_maxMsg_mem (xs : List ChatMessage) (x : ChatMessage) :
    xs.foldl maxMsg x ∈ x :: xs := by
  induction xs generalizing x with
  | nil => simp
  | cons y ys ih =>
    have h := ih (maxMsg x y)
    simp only [List.foldl_cons]
    rcases List.mem_cons.mp h with h1 | h1
    · rw [h1]
      unfold maxMsg
      split
      · simp
      · simp
    · exact List.mem_cons_of_mem _ (List.mem_cons_of_mem _ h1)

theorem latestChild_mem {l : List ChatMessage} {c : ChatMessage}
    (h : latestChild l = some c) : c ∈ l := by
  cases l with
  | nil => simp [latestChild] at h
  | cons x xs =>
    simp only [latestChild, Option.some.injEq] at h
    rw [← h]
    exact foldl_maxMsg_mem xs x

theorem mem_childrenOf {msgs : List ChatMessage} {pid : Nat} {c : ChatMessage} :
    c ∈ childrenOf msgs pid ↔ c ∈ msgs ∧ c.parentMessageId = some pid := by
  simp [childrenOf, List.mem_filter]

theorem self_mem_buildChain (msgs : List ChatMessage) (fuel : Nat) (cur : ChatMessage) :
    cur ∈ buildChain msgs fuel cur := by
  cases fuel with
  | zero => simp [buildChain]
  | succ n =>
    cases hlc : latestChild (childrenOf msgs cur.id) <;> simp [buildChain, hlc]

theorem buildChain_subset (msgs : List ChatMessage) :
    ∀ (fuel : Nat) (cur : ChatMessage), cur ∈ msgs →
      ∀ x ∈ buildChain msgs fuel cur, x ∈ msgs := by
  intro fuel
  induction fuel with
  | zero =>
    intro cur hcur x hx
    simp [buildChain] at hx
    rwa [hx]
  | succ n ih =>
    intro cur hcur x hx
    cases hlc : latestChild (childrenOf msgs cur.id) with
    | none =>
      simp [buildChain, hlc] at hx
      rwa [hx]
    | some c =>
      simp only [buildChain, hlc] at hx
      rcases List.mem_cons.mp hx with h | h
      · rwa [h]
      · exact ih c (mem_childrenOf.mp (latestChild_mem hlc)).1 x h

theorem buildChain_suffix (msgs : List ChatMessage) :
    ∀ (fuel : Nat) (cur M : ChatMessage), M ∈ buildChain msgs fuel cur →
      ∃ j k, fuel = j + k ∧ buildChain msgs j M <:+ buildChain msgs fuel cur ∧
        k + 1 ≤ (buildChain msgs fuel cur).length := by
  intro fuel
  induction fuel with
  | zero =>
    intro cur M hM
    simp [buildChain] at hM
    subst hM
    exact ⟨0, 0, rfl, List.suffix_refl _, by simp [buildChain]⟩
  | succ n ih =>
    intro cur M hM
    cases hlc : latestChild (childrenOf msgs cur.id) with
    | none =>
      have hch : buildChain msgs (n + 1) cur = [cur] := by simp [buildChain, hlc]
      rw [hch] at hM
      simp at hM
      subst hM
      exact ⟨n + 1, 0, rfl, List.suffix_refl _, by simp [hch]⟩
    | some c =>
      have hch : buildChain msgs (n + 1) cur = cur :: buildChain msgs n c := by
        simp [buildChain, hlc]
      rw [hch] at hM
      rcases List.mem_cons.mp hM with rfl | hM'
      · exact ⟨n + 1, 0, rfl, List.suffix_refl _, by simp [hch]⟩
      · obtain ⟨j, k, hjk, hsuf, hlen⟩ := ih c M hM'
        refine ⟨j, k + 1, by omega, ?_, ?_⟩
        · rw [hch]
          exact hsuf.trans (List.suffix_cons cur _)
        · rw [hch, List.length_cons]
          omega

theorem buildChain_step (msgs : List ChatMessage) :
    ∀ (fuel : Nat) (cur x : ChatMessage), x ∈ buildChain msgs fuel cur →
      x = cur ∨ ∃ p, p ∈ buildChain msgs fuel cur ∧
        latestChild (childrenOf msgs p.id) = some x := by
  intro fuel
  induction fuel with
  | zero =>
    intro cur x hx
    simp [buildChain] at hx
    exact Or.inl hx
  | succ n ih =>
    intro cur x hx
    cases hlc : latestChild (childrenOf msgs cur.id) with
    | none =>
      simp [buildChain, hlc] at hx
      exact Or.inl hx
    | some c =>
      have hch : buildChain msgs (n + 1) cur = cur :: buildChain msgs n c := by
        simp [buildChain, hlc]
      rw [hch] at hx
      rcases List.mem_cons.mp hx with rfl | hx'
      · exact Or.inl rfl
      · rcases ih c x hx' with rfl | ⟨p, hp, hplc⟩
        · refine Or.inr ⟨cur, ?_, hlc⟩
          rw [hch]
          exact List.mem_cons_self _ _
        · refine Or.inr ⟨p, ?_, hplc⟩
          rw [hch]
          exact List.mem_cons_of_mem _ hp

theorem buildChain_depth_le (msgs : List ChatMessage) (depth : Nat → Nat)
    (hdepth : ∀ m ∈ msgs, ∀ p ∈ msgs, m.parentMessageId = some p.id →
      depth p.id < depth m.id) :
    ∀ (fuel : Nat) (cur : ChatMessage), cur ∈ msgs →
      ∀ x ∈ buildChain msgs fuel cur, depth cur.id ≤ depth x.id := by
  intro fuel
  induction fuel with
  | zero =>
    intro cur hcur x hx
    simp [buildChain] at hx
    rw [hx]
  | succ n ih =>
    intro cur hcur x hx
    cases hlc : latestChild (childrenOf msgs cur.id) with
    | none =>
      simp [buildChain, hlc] at hx
      rw [hx]
    | some c =>
      simp only [buildChain, hlc] at hx
      rcases List.mem_cons.mp hx with rfl | hx'
      · exact le_refl _
      · have hc := mem_childrenOf.mp (latestChild_mem hlc)
        have hlt : depth cur.id < depth c.id := hdepth c hc.1 cur hcur hc.2
        have hle : depth c.id ≤ depth x.id := ih c hc.1 x hx'
        omega

theorem buildChain_nodup (msgs : List ChatMessage) (depth : Nat → Nat)
    (hdepth : ∀ m ∈ msgs, ∀ p ∈ msgs, m.parentMessageId = some p.id →
      depth p.id < depth m.id) :
    ∀ (fuel : Nat) (cur : ChatMessage), cur ∈ msgs →
      (buildChain msgs fuel cur).Nodup := by
  intro fuel
  induction fuel with
  | zero =>
    intro cur hcur
    simp [buildChain]
  | succ n ih =>
    intro cur hcur
    cases hlc : latestChild (childrenOf msgs cur.id) with
    | none => simp [buildChain, hlc]
    | some c =>
      have hc := mem_childrenOf.mp (latestChild_mem hlc)
      have hlt : depth cur.id < depth c.id := hdepth c hc.1 cur hcur hc.2
      simp only [buildChain, hlc, List.nodup_cons]
      refine ⟨?_, ih c hc.1⟩
      intro hmem
      have := buildChain_depth_le msgs depth hdepth n c hc.1 cur hmem
      omega

theorem buildChain_length_le (msgs : List ChatMessage) (depth : Nat → Nat)
    (hdepth : ∀ m ∈ msgs, ∀ p ∈ msgs, m.parentMessageId = some p.id →
      depth p.id < depth m.id)
    (fuel : Nat) (cur : ChatMessage) (hcur : cur ∈ msgs) :
    (buildChain msgs fuel cur).length ≤ msgs.length :=
  ((buildChain_nodup msgs depth hdepth fuel cur hcur).subperm
    (fun _ hx => buildChain_subset msgs fuel cur hcur _ hx)).length_le

theorem foldl_maxMsg_pair_start2 (C1 C2 : ChatMessage)
    (h12 : laterThan C1 C2 = false) :
    ∀ xs : List ChatMessage, (∀ y ∈ xs, y = C1 ∨ y = C2) →
      xs.foldl maxMsg C2 = C2 := by
  intro xs
  induction xs with
  | nil => intro _; simp
  | cons y ys ih =>
    intro hy
    have hmax : maxMsg C2 y = C2 := by
      rcases hy y (List.mem_cons_self _ _) with h | h <;> rw [h]
      · simp [maxMsg, h12]
      · simp [maxMsg, laterThan_self]
    simp only [List.foldl_cons, hmax]
    exact ih (fun z hz => hy z (List.mem_cons_of_mem _ hz))

theorem foldl_maxMsg_pair_start1 (C1 C2 : ChatMessage)
    (h21 : laterThan C2 C1 = true) (h12 : laterThan C1 C2 = false) (hne : C1 ≠ C2) :
    ∀ xs : List ChatMessage, (∀ y ∈ xs, y = C1 ∨ y = C2) → C2 ∈ xs →
      xs.foldl maxMsg C1 = C2 := by
  intro xs
  induction xs with
  | nil => intro _ h; simp at h
  | cons y ys ih =>
    intro hy hC2
    rcases hy y (List.mem_cons_self _ _) with h | h
    · have hmax : maxMsg C1 y = C1 := by rw [h]; simp [maxMsg, laterThan_self]
      simp only [List.foldl_cons, hmax]
      have hC2' : C2 ∈ ys := by
        rcases List.mem_cons.mp hC2 with h2 | h2
        · exact absurd (h2.trans h).symm hne
        · exact h2
      exact ih (fun z hz => hy z (List.mem_cons_of_mem _ hz)) hC2'
    · have hmax : maxMsg C1 y = C2 := by rw [h]; simp [maxMsg, h21]
      simp only [List.foldl_cons, hmax]
      exact foldl_maxMsg_pair_start2 C1 C2 h12 ys
        (fun z hz => hy z (List.mem_cons_of_mem _ hz))

/-- When a node's children are exactly the two siblings `C1` and `C2` and `C2`
is the later one, the builder's selection picks `C2`. -/
theorem latestChild_pair (msgs : List ChatMessage) (M C1 C2 : ChatMessage)
    (hC2 : C2 ∈ msgs) (hp2 : C2.parentMessageId = some M.id)
    (honly : ∀ x ∈ msgs, x.parentMessageId = some M.id → x = C1 ∨ x = C2)
    (h21 : laterThan C2 C1 = true) (h12 : laterThan C1 C2 = false) (hne : C1 ≠ C2) :
    latestChild (childrenOf msgs M.id) = some C2 := by
  have hmem : C2 ∈ childrenOf msgs M.id := mem_childrenOf.mpr ⟨hC2, hp2⟩
  have helems : ∀ y ∈ childrenOf msgs M.id, y = C1 ∨ y = C2 := by
    intro y hy
    have h := mem_childrenOf.mp hy
    exact honly y h.1 h.2
  cases hch : childrenOf msgs M.id with
  | nil => rw [hch] at hmem; simp at hmem
  | cons z zs =>
    rw [hch] at hmem helems
    simp only [latestChild, Option.some.injEq]
    rcases helems z (List.mem_cons_self _ _) with h | h
    · have hC2zs : C2 ∈ zs := by
        rcases List.mem_cons.mp hmem with h2 | h2
        · exact absurd (h2.trans h).symm hne
        · exact h2
      rw [h]
      exact foldl_maxMsg_pair_start1 C1 C2 h21 h12 hne zs
        (fun y hy => helems y (List.mem_cons_of_mem _ hy)) hC2zs
    · rw [h]
      exact foldl_maxMsg_pair_start2 C1 C2 h12 zs
        (fun y hy => helems y (List.mem_cons_of_mem _ hy))

theorem buildMessageHistory_of_find_none (msgs : List ChatMessage)
    (hfind : msgs.find? (fun m => m.parentMessageId == none) = none) :
    buildMessageHistory msgs = [] := by
  simp [buildMessageHistory, hfind]

theorem buildMessageHistory_of_find_some (msgs : List ChatMessage) (root : ChatMessage)
    (hfind : msgs.find? (fun m => m.parentMessageId == none) = some root) :
    buildMessageHistory msgs = buildChain msgs msgs.length root := by
  simp [buildMessageHistory, hfind]

/-- A chain member whose latest child exists is followed by that child in the
chain (the traversal cannot run out of fuel on a well-founded tree). -/
theorem chain_next (msgs : List ChatMessage) (depth : Nat → Nat)
    (hdepth : ∀ m ∈ msgs, ∀ p ∈ msgs, m.parentMessageId = some p.id →
      depth p.id < depth m.id)
    (M c : ChatMessage) (hM : M ∈ buildMessageHistory msgs)
    (hlc : latestChild (childrenOf msgs M.id) = some c) :
    c ∈ buildMessageHistory msgs := by
  cases hfind : msgs.find? (fun m => m.parentMessageId == none) with
  | none => rw [buildMessageHistory_of_find_none msgs hfind] at hM; simp at hM
  | some root =>
    rw [buildMessageHistory_of_find_some msgs root hfind] at hM ⊢
    have hroot : root ∈ msgs := List.mem_of_find?_eq_some hfind
    obtain ⟨j, k, hjk, hsuf, hlen⟩ := buildChain_suffix msgs msgs.length root M hM
    have hbound : (buildChain msgs msgs.length root).length ≤ msgs.length :=
      buildChain_length_le msgs depth hdepth msgs.length root hroot
    obtain ⟨j', rfl⟩ : ∃ j', j = j' + 1 := ⟨j - 1, by omega⟩
    have hstep : buildChain msgs (j' + 1) M = M :: buildChain msgs j' c := by
      simp [buildChain, hlc]
    refine hsuf.subset ?_
    rw [hstep]
    exact List.mem_cons_of_mem _ (self_mem_buildChain msgs j' c)

/-- Every non-root chain member's parent is itself a chain member. -/
theorem parent_mem_of_mem_chain (msgs : List ChatMessage)
    (hid : ∀ a ∈ msgs, ∀ b ∈ msgs, a.id = b.id → a = b)
    (P x : ChatMessage) (hP : P ∈ msgs) (hx : x.parentMessageId = some P.id)
    (hxchain : x ∈ buildMessageHistory msgs) :
    P ∈ buildMessageHistory msgs := by
  cases hfind : msgs.find? (fun m => m.parentMessageId == none) with
  | none => rw [buildMessageHistory_of_find_none msgs hfind] at hxchain; simp at hxchain
  | some root =>
    rw [buildMessageHistory_of_find_some msgs root hfind] at hxchain ⊢
    have hroot : root ∈ msgs := List.mem_of_find?_eq_some hfind
    have hrootp : root.parentMessageId = none := by
      have h := List.find?_some hfind
      simpa using h
    rcases buildChain_step msgs msgs.length root x hxchain with rfl | ⟨p, hp, hplc⟩
    · rw [hrootp] at hx
      exact Option.noConfusion hx
    · have hxch := mem_childrenOf.mp (latestChild_mem hplc)
      have hpid : p.id = P.id := by
        have h := hxch.2
        rw [hx] at h
        exact (Option.some.inj h).symm
      have hpmem : p ∈ msgs := buildChain_subset msgs msgs.length root hroot p hp
      have hpP : p = P := hid p hpmem P hP hpid
      rwa [hpP] at hp

/-- A child of a chain member that is not the selected latest child is not in
the chain. -/
theorem not_mem_chain_of_ne_selected (msgs : List ChatMessage)
    (hid : ∀ a ∈ msgs, ∀ b ∈ msgs, a.id = b.id → a = b)
    (M x c : ChatMessage) (hMmem : M ∈ msgs)
    (hlc : latestChild (childrenOf msgs M.id) = some c)
    (hx : x.parentMessageId = some M.id) (hne : x ≠ c) :
    x ∉ buildMessageHistory msgs := by
  intro hxchain
  cases hfind : msgs.find? (fun m => m.parentMessageId == none) with
  | none => rw [buildMessageHistory_of_find_none msgs hfind] at hxchain; simp at hxchain
  | some root =>
    rw [buildMessageHistory_of_find_some msgs root hfind] at hxchain
    have hroot : root ∈ msgs := List.mem_of_find?_eq_some hfind
    have hrootp : root.parentMessageId = none := by
      have h := List.find?_some hfind
      simpa using h
    rcases buildChain_step msgs msgs.length root x hxchain with rfl | ⟨p, hp, hplc⟩
    · rw [hrootp] at hx
      exact Option.noConfusion hx
    · have hxch := mem_childrenOf.mp (latestChild_mem hplc)
      have hpid : p.id = M.id := by
        have h := hxch.2
        rw [hx] at h
        exact (Option.some.inj h).symm
      have hpmem : p ∈ msgs := buildChain_subset msgs msgs.length root hroot p hp
      have hpM : p = M := hid p hpmem M hMmem hpid
      rw [hpM, hlc] at hplc
      exact hne (Option.some.inj hplc).symm

/-- No descendant of a message missing from the chain is in the chain. -/
theorem descendant_not_mem_chain (msgs : List ChatMessage)
    (hid : ∀ a ∈ msgs, ∀ b ∈ msgs, a.id = b.id → a = b)
    (A : ChatMessage) (hA : A ∈ msgs) (hAnot : A ∉ buildMessageHistory msgs) :
    ∀ d, Descendant msgs A d → d ∉ buildMessageHistory msgs := by
  intro d hdesc
  induction hdesc with
  | child hd hp =>
    intro hdchain
    exact hAnot (parent_mem_of_mem_chain msgs hid A _ hA hp hdchain)
  | step hanc hd hp ih =>
    intro hdchain
    exact ih (parent_mem_of_mem_chain msgs hid _ _ hanc.mem_right hp hdchain)

/-! ## Lemmas about the Memory Access Facade -/

theorem any_false_const (ts : List Nat) : (ts.any fun _ => false) = false := by
  induction ts with
  | nil => rfl
  | cons t ts ih => simp [List.any_cons, ih]

/-- `getMemory` in closed form: the store entries matching the facade's
session and memory node whose turn id lies in the ids extracted from the
active chain, in store (creation) order, projected to the entry contract. -/
theorem getMemory_eq_filter (f : Facade) (msgs : List ChatMessage) (store : List MemoryEntry) :
    getMemory f msgs store =
      (store.filter (fun e =>
        e.sessionId == f.sessionId && e.memoryNodeId == f.memoryNodeId &&
          (extractTurnIds (buildMessageHistory (getManyBySessionId msgs f.sessionId))).any
            (fun t => e.turnId == some t))).map projectEntry := by
  unfold getMemory getMemoryTraced getMemoryByTurnIds
  by_cases h0 : ((getManyBySessionId msgs f.sessionId).length == 0) = true
  · have hnil : getManyBySessionId msgs f.sessionId = [] := by
      rw [Nat.beq_eq_true_eq] at h0
      exact List.length_eq_zero.mp h0
    rw [hnil]
    simp [buildMessageHistory, extractTurnIds]
  · rw [if_neg h0]
    by_cases h1 : ((extractTurnIds
        (buildMessageHistory (getManyBySessionId msgs f.sessionId))).length == 0) = true
    · have hnil : extractTurnIds
          (buildMessageHistory (getManyBySessionId msgs f.sessionId)) = [] := by
        rw [Nat.beq_eq_true_eq] at h1
        exact List.length_eq_zero.mp h1
      rw [if_pos h1, hnil]
      simp
    · rw [if_neg h1]

/-! ## Claims -/

/-- C1: For every set of stored chat messages forming a tree (unique ids and
acyclic parent links, witnessed by a depth measure that parent steps strictly
increase away from the root), the Message Chain Builder selects, at each node
on the returned root-to-leaf path, the child with the latest `createdAt` among
the siblings sharing that parent: when a path member `M` has exactly the two
children `C1` and `C2` with `C2` created strictly later, the output contains
`C2` and excludes `C1` and every descendant of `C1`. -/
theorem c1_chain_selects_latest_and_prunes (msgs : List ChatMessage)
    (M C1 C2 : ChatMessage) (depth : Nat → Nat)
    (hdepth : ∀ m ∈ msgs, ∀ p ∈ msgs, m.parentMessageId = some p.id →
      depth p.id < depth m.id)
    (hid : ∀ a ∈ msgs, ∀ b ∈ msgs, a.id = b.id → a = b)
    (hM : M ∈ msgs) (hC1 : C1 ∈ msgs) (hC2 : C2 ∈ msgs)
    (hp1 : C1.parentMessageId = some M.id) (hp2 : C2.parentMessageId = some M.id)
    (honly : ∀ x ∈ msgs, x.parentMessageId = some M.id → x = C1 ∨ x = C2)
    (hlater : C1.createdAt < C2.createdAt)
    (hMchain : M ∈ buildMessageHistory msgs) :
    C2 ∈ buildMessageHistory msgs ∧ C1 ∉ buildMessageHistory msgs ∧
      ∀ d, Descendant msgs C1 d → d ∉ buildMessageHistory msgs := by
  have hne : C1 ≠ C2 := by
    intro h
    rw [h] at hlater
    omega
  have h21 : laterThan C2 C1 = true := by
    unfold laterThan
    rw [decide_eq_true hlater]
    simp
  have h12 : laterThan C1 C2 = false := by
    unfold laterThan
    have hnlt : ¬ C2.createdAt < C1.createdAt := by omega
    have hneq : ¬ C1.createdAt = C2.createdAt := by omega
    simp [hnlt, hneq]
  have hlc : latestChild (childrenOf msgs M.id) = some C2 :=
    latestChild_pair msgs M C1 C2 hC2 hp2 honly h21 h12 hne
  have hC2chain : C2 ∈ buildMessageHistory msgs :=
    chain_next msgs depth hdepth M C2 hMchain hlc
  have hC1not : C1 ∉ buildMessageHistory msgs :=
    not_mem_chain_of_ne_selected msgs hid M C1 C2 hM hlc hp1 hne
  exact ⟨hC2chain, hC1not, descendant_not_mem_chain msgs hid C1 hC1 hC1not⟩

/-- Witness for C1: a four-message tree (root, two rival replies, a child of
the superseded reply); the chain keeps the later reply and drops the earlier
one together with its child. -/
theorem c1_chain_selects_latest_and_prunes_witness :
    (⟨2, 1, some 0, "ai", some 200, 2⟩ : ChatMessage) ∈ buildMessageHistory
        [⟨0, 1, none, "human", none, 0⟩, ⟨1, 1, some 0, "ai", some 100, 1⟩,
         ⟨2, 1, some 0, "ai", some 200, 2⟩, ⟨3, 1, some 1, "human", none, 3⟩]
      ∧ (⟨1, 1, some 0, "ai", some 100, 1⟩ : ChatMessage) ∉ buildMessageHistory
        [⟨0, 1, none, "human", none, 0⟩, ⟨1, 1, some 0, "ai", some 100, 1⟩,
         ⟨2, 1, some 0, "ai", some 200, 2⟩, ⟨3, 1, some 1, "human", none, 3⟩]
      ∧ (⟨3, 1, some 1, "human", none, 3⟩ : ChatMessage) ∉ buildMessageHistory
        [⟨0, 1, none, "human", none, 0⟩, ⟨1, 1, some 0, "ai", some 100, 1⟩,
         ⟨2, 1, some 0, "ai", some 200, 2⟩, ⟨3, 1, some 1, "human", none, 3⟩] := by
  have h := c1_chain_selects_latest_and_prunes
    [⟨0, 1, none, "human", none, 0⟩, ⟨1, 1, some 0, "ai", some 100, 1⟩,
     ⟨2, 1, some 0, "ai", some 200, 2⟩, ⟨3, 1, some 1, "human", none, 3⟩]
    ⟨0, 1, none, "human", none, 0⟩ ⟨1, 1, some 0, "ai", some 100, 1⟩
    ⟨2, 1, some 0, "ai", some 200, 2⟩ (fun i => i)
    (by decide) (by decide) (by decide) (by decide) (by decide) (by decide)
    (by decide) (by decide) (by decide) (by decide)
  exact ⟨h.1, h.2.1, h.2.2 _ (Descendant.child (by decide) (by decide))⟩

/-- C2: for every facade and store state, `getMemory` returns exactly the
store entries whose sessionId and memoryNodeId equal the facade's and whose
turnId lies in the set extracted from the active chain, in creation order,
projected to the typed entry contract; every returned element stems from an
entry of this facade's memory node (read isolation), and when the store log is
ordered by creation time so is the result. -/
theorem c2_getMemory_exact (f : Facade) (msgs : List ChatMessage)
    (store : List MemoryEntry) :
    getMemory f msgs store =
      (store.filter (fun e =>
        e.sessionId == f.sessionId && e.memoryNodeId == f.memoryNodeId &&
          (extractTurnIds (buildMessageHistory (getManyBySessionId msgs f.sessionId))).any
            (fun t => e.turnId == some t))).map projectEntry
    ∧ (∀ x ∈ getMemory f msgs store, ∃ e ∈ store,
        e.sessionId = f.sessionId ∧ e.memoryNodeId = f.memoryNodeId ∧
        (∃ t ∈ extractTurnIds (buildMessageHistory (getManyBySessionId msgs f.sessionId)),
          e.turnId = some t) ∧ projectEntry e = x)
    ∧ (List.Pairwise (fun a b => a.createdAt ≤ b.createdAt) store →
        List.Pairwise (fun (a b : ChatHubMemoryEntryOut) => a.createdAt ≤ b.createdAt)
          (getMemory f msgs store)) := by
  refine ⟨getMemory_eq_filter f msgs store, ?_, ?_⟩
  · intro x hx
    rw [getMemory_eq_filter] at hx
    obtain ⟨e, he, rfl⟩ := List.mem_map.mp hx
    obtain ⟨hstore, hpred⟩ := List.mem_filter.mp he
    rw [Bool.and_eq_true, Bool.and_eq_true] at hpred
    obtain ⟨⟨hsid, hnid⟩, hany⟩ := hpred
    obtain ⟨t, ht, hbeq⟩ := List.any_eq_true.mp hany
    exact ⟨e, hstore, by simpa using hsid, by simpa using hnid,
      ⟨t, ht, by simpa using hbeq⟩, rfl⟩
  · intro hpw
    rw [getMemory_eq_filter]
    refine List.Pairwise.map projectEntry (fun a b h => h) ?_
    exact hpw.sublist (List.filter_sublist store)

/-- Witness for C2: a two-message session whose chain has one assistant turn;
of three stored entries only the one of the facade's memory node with that
turn id is returned, and the result is creation-ordered. -/
theorem c2_getMemory_exact_witness :
    getMemory ⟨1, 5, some 7, 9, none, "A"⟩
        [⟨0, 1, none, "human", none, 0⟩, ⟨1, 1, some 0, "ai", some 100, 1⟩]
        [⟨10, 1, 5, some 100, "human", .text "hi", some "User", 0⟩,
         ⟨11, 1, 6, some 100, "human", .text "other node", some "User", 1⟩,
         ⟨12, 1, 5, none, "human", .text "orphan", some "User", 2⟩] =
      [⟨10, "human", .text "hi", some "User", 0⟩]
    ∧ List.Pairwise (fun (a b : ChatHubMemoryEntryOut) => a.createdAt ≤ b.createdAt)
        (getMemory ⟨1, 5, some 7, 9, none, "A"⟩
          [⟨0, 1, none, "human", none, 0⟩, ⟨1, 1, some 0, "ai", some 100, 1⟩]
          [⟨10, 1, 5, some 100, "human", .text "hi", some "User", 0⟩,
           ⟨11, 1, 6, some 100, "human", .text "other node", some "User", 1⟩,
           ⟨12, 1, 5, none, "human", .text "orphan", some "User", 2⟩]) := by
  have h := c2_getMemory_exact ⟨1, 5, some 7, 9, none, "A"⟩
    [⟨0, 1, none, "human", none, 0⟩, ⟨1, 1, some 0, "ai", some 100, 1⟩]
    [⟨10, 1, 5, some 100, "human", .text "hi", some "User", 0⟩,
     ⟨11, 1, 6, some 100, "human", .text "other node", some "User", 1⟩,
     ⟨12, 1, 5, none, "human", .text "orphan", some "User", 2⟩]
  refine ⟨rfl, h.2.2 ?_⟩
  simp [List.pairwise_cons]

/-- C3: a facade the host helper hands out for an execution without a turn id
still records every write — `addHumanMessage`, `addAIMessage` and
`addToolMessage` each append one entry carrying `turnId = none` — and a
null-turn entry is invisible to `getMemory` of any later execution (appending
it to the store never changes any `getMemory` result), since turn-chain
filtering only matches non-null turn ids. -/
theorem c3_null_turn_writes_recorded_not_retrievable (userId : Option Nat)
    (w : Workflow) (node : INode) (mode : WorkflowExecuteMode)
    (sid nid : Nat) (f : Facade)
    (hok : getChatHubHelperProxy userId w node mode sid nid none = .ok f) :
    f.executionTurnId = none
    ∧ (∀ store content, ∃ e, addHumanMessage f store content = store ++ [e] ∧
        e.turnId = none ∧ e.role = "human")
    ∧ (∀ store content, ∃ e, addAIMessage f store content = store ++ [e] ∧
        e.turnId = none ∧ e.role = "ai")
    ∧ (∀ store cid tn tin tout, ∃ e, addToolMessage f store cid tn tin tout = store ++ [e] ∧
        e.turnId = none ∧ e.role = "tool")
    ∧ (∀ (g : Facade) (msgs : List ChatMessage) (store : List MemoryEntry)
        (e : MemoryEntry), e.turnId = none →
          getMemory g msgs (store ++ [e]) = getMemory g msgs store) := by
  have hturn : f.executionTurnId = none := by
    unfold getChatHubHelperProxy getChatHubProxy at hok
    cases hval : validateRequest node with
    | error msg => rw [hval] at hok; exact Except.noConfusion hok
    | ok u =>
      rw [hval] at hok
      cases howner : (if (mode == WorkflowExecuteMode.manual) = true then none else userId :
          Option Nat) with
      | none => rw [howner] at hok; exact Except.noConfusion hok
      | some oid =>
        rw [howner] at hok
        have hf := Except.ok.inj hok
        rw [← hf]
  refine ⟨hturn, ?_, ?_, ?_, ?_⟩
  · intro store content
    exact ⟨mkMemoryEntry f store "human" content "User", rfl, hturn, rfl⟩
  · intro store content
    exact ⟨mkMemoryEntry f store "ai" content "AI", rfl, hturn, rfl⟩
  · intro store cid tn tin tout
    exact ⟨mkMemoryEntry f store "tool"
      (.json (.obj [("toolCallId", .str cid), ("toolName", .str tn),
                    ("toolInput", tin), ("toolOutput", tout)])) tn, rfl, hturn, rfl⟩
  · intro g msgs store e he
    rw [getMemory_eq_filter, getMemory_eq_filter, List.filter_append]
    have hpred : (List.filter (fun e =>
        e.sessionId == g.sessionId && e.memoryNodeId == g.memoryNodeId &&
          (extractTurnIds (buildMessageHistory (getManyBySessionId msgs g.sessionId))).any
            (fun t => e.turnId == some t)) [e]) = [] := by
      simp [List.filter, he, any_false_const]
    rw [hpred, List.append_nil]

/-- Witness for C3: the helper in webhook mode with a logged-in user and a
null turn id yields a facade whose turn id is null; its human write appends
one null-turn entry. -/
theorem c3_null_turn_writes_recorded_not_retrievable_witness :
    (⟨1, 2, none, 7, some 3, "W"⟩ : Facade).executionTurnId = none
    ∧ (∃ e, addHumanMessage ⟨1, 2, none, 7, some 3, "W"⟩ [] (.text "hi") = [] ++ [e] ∧
        e.turnId = none ∧ e.role = "human")
    ∧ getMemory ⟨1, 2, none, 7, some 3, "W"⟩
        [⟨0, 1, none, "human", none, 0⟩, ⟨1, 1, some 0, "ai", some 100, 1⟩]
        ([] ++ [⟨10, 1, 2, none, "human", .text "hi", some "User", 0⟩]) =
      getMemory ⟨1, 2, none, 7, some 3, "W"⟩
        [⟨0, 1, none, "human", none, 0⟩, ⟨1, 1, some 0, "ai", some 100, 1⟩] [] := by
  have h := c3_null_turn_writes_recorded_not_retrievable (some 7)
    ⟨some 3, some "W", []⟩ ⟨"@n8n/n8n-nodes-langchain.memoryChatHub"⟩
    WorkflowExecuteMode.webhook 1 2 ⟨1, 2, none, 7, some 3, "W"⟩ rfl
  exact ⟨h.1, h.2.1 [] (.text "hi"),
    h.2.2.2.2 ⟨1, 2, none, 7, some 3, "W"⟩
      [⟨0, 1, none, "human", none, 0⟩, ⟨1, 1, some 0, "ai", some 100, 1⟩] []
      ⟨10, 1, 2, none, "human", .text "hi", some "User", 0⟩ rfl⟩

/-- C5: whenever the active chain of the facade's session contains no
assistant (`ai`-role) message, the extracted turn-id set is empty and
`getMemory` returns the empty sequence without querying the Memory Entry Store
(the traced query flag stays false) — a normal result, not an error. -/
theorem c5_no_assistant_no_query (f : Facade) (msgs : List ChatMessage)
    (store : List MemoryEntry)
    (hno : ∀ m ∈ buildMessageHistory (getManyBySessionId msgs f.sessionId),
      m.role ≠ "ai") :
    extractTurnIds (buildMessageHistory (getManyBySessionId msgs f.sessionId)) = []
    ∧ getMemoryTraced f msgs store = ([], false)
    ∧ getMemory f msgs store = [] := by
  have hfil : (buildMessageHistory (getManyBySessionId msgs f.sessionId)).filter
      (fun m => m.role == "ai") = [] := by
    rw [List.filter_eq_nil_iff]
    intro m hm
    simpa using hno m hm
  have hext : extractTurnIds (buildMessageHistory (getManyBySessionId msgs f.sessionId))
      = [] := by
    unfold extractTurnIds
    rw [hfil]
    rfl
  have htraced : getMemoryTraced f msgs store = ([], false) := by
    unfold getMemoryTraced
    by_cases h0 : ((getManyBySessionId msgs f.sessionId).length == 0) = true
    · rw [if_pos h0]
    · rw [if_neg h0]
      simp [hext]
  exact ⟨hext, htraced, by unfold getMemory; rw [htraced]⟩

/-- Witness for C5: a fresh one-message conversation; with a non-empty store
the facade still gets an empty result and the store is not queried. -/
theorem c5_no_assistant_no_query_witness :
    extractTurnIds (buildMessageHistory (getManyBySessionId
      [⟨0, 1, none, "human", none, 0⟩] 1)) = []
    ∧ getMemoryTraced ⟨1, 5, some 7, 9, none, "A"⟩ [⟨0, 1, none, "human", none, 0⟩]
        [⟨10, 1, 5, some 100, "human", .text "hi", some "User", 0⟩] = ([], false) := by
  have h := c5_no_assistant_no_query ⟨1, 5, some 7, 9, none, "A"⟩
    [⟨0, 1, none, "human", none, 0⟩]
    [⟨10, 1, 5, some 100, "human", .text "hi", some "User", 0⟩] (by decide)
  exact ⟨h.1, h.2.1⟩

/-- C6: `getChatHubProxy` rejects with an error — before any store access (the
embedded function takes no store at all) — whenever the requesting node's type
is not allow-listed or no ownerId is supplied; when both checks pass it
returns the facade. -/
theorem c6_access_control (w : Workflow) (node : INode) (sid nid : Nat)
    (tid : Option Nat) (oid : Option Nat) :
    (isAllowedNode node.type = false →
      getChatHubProxy w node sid nid tid oid =
        .error "This proxy is only available for Chat Hub Memory nodes")
    ∧ (isAllowedNode node.type = true → oid = none →
      getChatHubProxy w node sid nid tid oid =
        .error "Owner ID is required for Chat Hub Memory. For manual executions, ensure the user context is available.")
    ∧ (∀ o, isAllowedNode node.type = true → oid = some o →
      getChatHubProxy w node sid nid tid oid =
        .ok ⟨sid, nid, tid, o, w.id, extractAgentName w⟩) := by
  refine ⟨?_, ?_, ?_⟩
  · intro hbad
    unfold getChatHubProxy validateRequest
    rw [hbad]
    rfl
  · intro hgood hnone
    unfold getChatHubProxy validateRequest
    rw [hgood, hnone]
    rfl
  · intro o hgood hsome
    unfold getChatHubProxy validateRequest
    rw [hgood, hsome]
    rfl

/-- Witness for C6: a disallowed node type and a missing owner are both
rejected; an allow-listed node with an owner receives the facade. -/
theorem c6_access_control_witness :
    getChatHubProxy ⟨some 3, none, []⟩ ⟨"n8n-nodes-base.set"⟩ 1 2 none (some 7) =
      .error "This proxy is only available for Chat Hub Memory nodes"
    ∧ getChatHubProxy ⟨some 3, none, []⟩ ⟨"@n8n/n8n-nodes-langchain.memoryChatHub"⟩
        1 2 none none =
      .error "Owner ID is required for Chat Hub Memory. For manual executions, ensure the user context is available."
    ∧ getChatHubProxy ⟨some 3, none, []⟩ ⟨"@n8n/n8n-nodes-langchain.memoryChatHub"⟩
        1 2 none (some 7) =
      .ok ⟨1, 2, none, 7, some 3, "Workflow Chat"⟩ := by
  refine ⟨?_, ?_, ?_⟩
  · exact (c6_access_control ⟨some 3, none, []⟩ ⟨"n8n-nodes-base.set"⟩ 1 2 none
      (some 7)).1 rfl
  · exact (c6_access_control ⟨some 3, none, []⟩
      ⟨"@n8n/n8n-nodes-langchain.memoryChatHub"⟩ 1 2 none none).2.1 rfl rfl
  · exact (c6_access_control ⟨some 3, none, []⟩
      ⟨"@n8n/n8n-nodes-langchain.memoryChatHub"⟩ 1 2 none (some 7)).2.2 7 rfl rfl

/-- C8: `ensureSession` creates the session record iff none with this id
exists for this owner; the second call is a no-op and raises no error; a
supplied non-empty title wins over the derived agent name; and the derived
agent name comes from the chat trigger's non-blank `agentName`, else the
non-blank workflow name, else the default. -/
theorem c8_ensureSession_idempotent (f : Facade) (sessions : List ChatSession)
    (title : Option String) (now : Nat) :
    (existsById sessions f.sessionId f.ownerId = true →
      ensureSession f title now sessions = .ok sessions)
    ∧ (existsById sessions f.sessionId f.ownerId = false →
      ensureSession f title now sessions = .ok (sessions ++ [mkSessionRecord f title now]))
    ∧ (∀ s1, ensureSession f title now sessions = .ok s1 →
      ∀ title2 now2, ensureSession f title2 now2 s1 = .ok s1)
    ∧ (∀ t, title = some t → t ≠ "" → (mkSessionRecord f title now).title = t)
    ∧ (title = none → (mkSessionRecord f title now).title = f.agentName)
    ∧ (∀ (w : Workflow) (n : WorkflowNode) (a : String), findChatTrigger w = some n →
      n.agentName = some a → trimString a ≠ "" → extractAgentName w = a)
    ∧ (∀ (w : Workflow) (n : WorkflowNode), findChatTrigger w = some n →
      n.agentName = none → extractAgentName w = workflowNameOrDefault w)
    ∧ (∀ w : Workflow, findChatTrigger w = none →
      extractAgentName w = workflowNameOrDefault w)
    ∧ (∀ (w : Workflow) (nm : String), w.name = some nm → trimString nm ≠ "" →
      workflowNameOrDefault w = nm)
    ∧ (∀ w : Workflow, w.name = none → workflowNameOrDefault w = NAME_FALLBACK) := by
  have hcreate : existsById sessions f.sessionId f.ownerId = false →
      ensureSession f title now sessions =
        .ok (sessions ++ [mkSessionRecord f title now]) := by
    intro hex
    unfold ensureSession createChatSession
    rw [hex]
    have : (sessions.any (fun s =>
        s.id == (mkSessionRecord f title now).id &&
          s.ownerId == (mkSessionRecord f title now).ownerId)) = false := hex
    rw [if_neg (by simp), if_neg (by rw [this]; simp)]
  refine ⟨?_, hcreate, ?_, ?_, ?_, ?_, ?_, ?_, ?_, ?_⟩
  · intro hex
    unfold ensureSession
    rw [hex]
    rfl
  · intro s1 h1 title2 now2
    cases hex : existsById sessions f.sessionId f.ownerId with
    | true =>
      unfold ensureSession at h1
      rw [hex] at h1
      have hs1 : sessions = s1 := Except.ok.inj h1
      rw [← hs1]
      unfold ensureSession
      rw [hex]
      rfl
    | false =>
      rw [hcreate hex] at h1
      have hs1 : sessions ++ [mkSessionRecord f title now] = s1 := Except.ok.inj h1
      rw [← hs1]
      unfold ensureSession
      have hex2 : existsById (sessions ++ [mkSessionRecord f title now])
          f.sessionId f.ownerId = true := by
        unfold existsById
        rw [List.any_append]
        simp [mkSessionRecord]
      rw [hex2]
      rfl
  · intro t ht hne
    unfold mkSessionRecord
    rw [ht]
    simp [hne]
  · intro ht
    unfold mkSessionRecord
    rw [ht]
  · intro w n a hfind hname hne
    unfold extractAgentName
    rw [hfind]
    simp [hname, hne]
  · intro w n hfind hname
    unfold extractAgentName
    rw [hfind]
    simp [hname]
  · intro w hfind
    unfold extractAgentName
    rw [hfind]
  · intro w nm hnm hne
    unfold workflowNameOrDefault
    rw [hnm]
    simp [hne]
  · intro w hnm
    unfold workflowNameOrDefault
    rw [hnm]

/-- Witness for C8: bootstrapping a fresh session creates one record titled by
the supplied title; the second call is a no-op; a chat trigger agent name
"Bob" is derived, and an absent workflow name falls back to the default. -/
theorem c8_ensureSession_idempotent_witness :
    ensureSession ⟨1, 2, none, 7, none, "Agent"⟩ (some "T") 0 [] =
      .ok ([] ++ [mkSessionRecord ⟨1, 2, none, 7, none, "Agent"⟩ (some "T") 0])
    ∧ ensureSession ⟨1, 2, none, 7, none, "Agent"⟩ none 1
        ([] ++ [mkSessionRecord ⟨1, 2, none, 7, none, "Agent"⟩ (some "T") 0]) =
      .ok ([] ++ [mkSessionRecord ⟨1, 2, none, 7, none, "Agent"⟩ (some "T") 0])
    ∧ (mkSessionRecord ⟨1, 2, none, 7, none, "Agent"⟩ (some "T") 0).title = "T"
    ∧ extractAgentName ⟨none, none,
        [⟨"@n8n/n8n-nodes-langchain.chatTrigger", some "Bob"⟩]⟩ = "Bob"
    ∧ workflowNameOrDefault (⟨none, none, []⟩ : Workflow) = NAME_FALLBACK := by
  have h := c8_ensureSession_idempotent ⟨1, 2, none, 7, none, "Agent"⟩ [] (some "T") 0
  refine ⟨h.2.1 rfl, h.2.2.1 _ (h.2.1 rfl) none 1, h.2.2.2.1 "T" rfl (by decide),
    h.2.2.2.2.2.1 ⟨none, none, [⟨"@n8n/n8n-nodes-langchain.chatTrigger", some "Bob"⟩]⟩
      ⟨"@n8n/n8n-nodes-langchain.chatTrigger", some "Bob"⟩ "Bob" rfl rfl (by decide),
    h.2.2.2.2.2.2.2.2.2 ⟨none, none, []⟩ rfl⟩

/-- C9: when two executions race to bootstrap the same new session — both
existence checks read the state before either create — the loser's
duplicate-create attempt is absorbed by the repository's uniqueness policy:
the bootstrap completes with the single created record and no error is
surfaced. -/
theorem c9_duplicate_create_absorbed (s0 : List ChatSession) (f1 f2 : Facade)
    (t1 t2 : Option String) (n1 n2 : Nat)
    (hsid : f2.sessionId = f1.sessionId) (hown : f2.ownerId = f1.ownerId)
    (hfresh : existsById s0 f1.sessionId f1.ownerId = false) :
    racyBootstrap s0 f1 f2 t1 t2 n1 n2 = .ok (s0 ++ [mkSessionRecord f1 t1 n1]) := by
  unfold racyBootstrap createChatSession
  have hfresh2 : existsById s0 f2.sessionId f2.ownerId = false := by
    rw [hsid, hown]
    exact hfresh
  rw [hfresh, hfresh2]
  simp only [Bool.false_eq_true, if_false]
  have hdup1 : (s0.any (fun s => s.id == (mkSessionRecord f1 t1 n1).id &&
      s.ownerId == (mkSessionRecord f1 t1 n1).ownerId)) = false := hfresh
  rw [if_neg (by rw [hdup1]; simp)]
  have hdup2 : ((s0 ++ [mkSessionRecord f1 t1 n1]).any (fun s =>
      s.id == (mkSessionRecord f2 t2 n2).id &&
        s.ownerId == (mkSessionRecord f2 t2 n2).ownerId)) = true := by
    rw [List.any_append]
    simp [mkSessionRecord, hsid, hown]
  simp [hdup2]

/-- Witness for C9: two facades of the same session and owner race on an empty
session store; the result is the first record, with no surfaced error. -/
theorem c9_duplicate_create_absorbed_witness :
    racyBootstrap [] ⟨1, 2, none, 7, none, "A"⟩ ⟨1, 3, some 4, 7, none, "B"⟩
      (some "T") none 0 1 =
    .ok ([] ++ [mkSessionRecord ⟨1, 2, none, 7, none, "A"⟩ (some "T") 0]) :=
  c9_duplicate_create_absorbed [] ⟨1, 2, none, 7, none, "A"⟩
    ⟨1, 3, some 4, 7, none, "B"⟩ (some "T") none 0 1 rfl rfl rfl

/-- C4: round trip through the Entry Marshaling Adapter. Writing an assistant
message with string content `s` and tool-call descriptors `ds` appends one
`ai`-role entry scoped to the facade, and reading that entry back through
`convertToLangChainMessage` yields an `AIMessage` with the same content and
the same tool-call metadata (the name slot carries the stored label `AI`). -/
theorem c4_ai_roundtrip (f : Facade) (store : List MemoryEntry) (s : String)
    (ds : List Json) (nm : Option String) :
    ∃ e : MemoryEntry,
      addMessageHistory f store (.ai (.str s) (some (.arr ds)) nm) = store ++ [e]
      ∧ e.role = "ai" ∧ e.sessionId = f.sessionId ∧ e.memoryNodeId = f.memoryNodeId
      ∧ e.turnId = f.executionTurnId
      ∧ convertToLangChainMessage (projectEntry e) =
          .ok (.ai (.str s) (some (.arr ds)) (some "AI")) := by
  refine ⟨mkMemoryEntry f store "ai"
    (.json (.obj [("content", .str s), ("toolCalls", .arr ds)])) "AI",
    ?_, rfl, rfl, rfl, rfl, ?_⟩
  · rfl
  · rfl

/-- C10: the adapter's write direction drops system messages — and every
message whose type is not human, ai or tool — without touching the Memory
Entry Store, even though the read direction does produce system messages
(from `system`-role entries, passing the raw payload through). -/
theorem c10_system_messages_not_saved (f : Facade) (store : List MemoryEntry) :
    (∀ c : Json, addMessageHistory f store (.system c) = store)
    ∧ (∀ (t : String) (c : Json), addMessageHistory f store (.other t c) = store)
    ∧ (∀ (i : Nat) (p : ContentPayload) (nm : Option String) (ca : Nat),
        convertToLangChainMessage ⟨i, "system", p, nm, ca⟩ =
          .ok (.system (.str (rawString p)))) :=
  ⟨fun _ => rfl, fun _ _ => rfl, fun _ _ _ _ => rfl⟩

/-- C7 (failing input): the read direction is not total. A stored `tool`-role
entry whose content column holds the four-character JSON text `null` parses
successfully to JavaScript `null`; `parseToolMessageContent` returns it
uncast, and the caller's `toolData.toolCallId` access raises an uncaught
TypeError instead of falling back to the raw payload. -/
theorem c7_tool_null_content_read_throws :
    convertToLangChainMessage ⟨0, "tool", .json .null, some "web_search", 0⟩ =
      .error () := rfl

end ChatHub
